import Mathlib

/-!
Verification of the starknet-rs core against its specification.

The elliptic-curve point arithmetic is embedded from
`starknet-crypto/src/ec_point.rs`.  The base field (`FieldElement`) is an
external collaborator of that file ("modular arithmetic over a fixed prime;
supports add, subtract, multiply, invert, modular square root"), so the
embedding is parametric over a field `F`; the fallible field operations
`invert` and `sqrt` are modelled from the spec's interface description
and passed as parameters.  A Rust `unwrap()` on a failed operation aborts
the program, so every operation that can reach such an `unwrap` is
embedded with result type `Option _`, where `none` means the Rust code
panics.
-/

/-- `AffinePoint` from `ec_point.rs`: `{x, y, infinity}`, a point of the
curve when `infinity` is false, the point at infinity otherwise. -/
structure AffinePoint (F : Type) where
  x : F
  y : F
  infinity : Bool
deriving DecidableEq

namespace AffinePoint

variable {F : Type} [Field F]

/-- `AffinePoint::identity`: the point at infinity, with zero coordinates. -/
def identity : AffinePoint F :=
  { x := 0, y := 0, infinity := true }

variable (invert : F → Option F)

/-- `AffinePoint::double`.  For a finite point the tangent slope is
`λ = (3x² + 1) / (2y)` (the curve parameter `a = 1` is hard-coded, as in the
source); the divisor is inverted through `invert(…).unwrap()`, so a failing
inversion makes the Rust code panic, modelled by `none`.  The external
field's `invert` is a parameter, modelled from the spec's field interface. -/
def double (p : AffinePoint F) : Option (AffinePoint F) :=
  if p.infinity then
    some p
  else
    let two : F := 1 + 1
    let three : F := two + 1
    let dividend : F := three * (p.x * p.x) + 1
    match invert (two * p.y) with
    | none => none
    | some divisor_inv =>
      let lambda := dividend * divisor_inv
      let result_x := lambda * lambda - p.x - p.x
      let result_y := lambda * (p.x - result_x) - p.y
      some { x := result_x, y := result_y, infinity := false }

/-- `AffinePoint::add`: chord addition.  The infinity guards return the other
operand; otherwise the slope `λ = (y₂-y₁)/(x₂-x₁)` is computed through
`invert(x₂-x₁).unwrap()`, so a failing inversion makes the Rust code panic,
modelled by `none`.  No equal-x guard exists in the source. -/
def add (p q : AffinePoint F) : Option (AffinePoint F) :=
  if p.infinity then
    some q
  else if q.infinity then
    some p
  else
    match invert (q.x - p.x) with
    | none => none
    | some divisor_inv =>
      let lambda := (q.y - p.y) * divisor_inv
      let result_x := lambda * lambda - p.x - q.x
      let result_y := lambda * (p.x - result_x) - p.y
      some { x := result_x, y := result_y, infinity := false }

/-- `AffinePoint::subtract`: adds the negation of `q` (y-coordinate flipped,
infinity flag preserved). -/
def subtract (p q : AffinePoint F) : Option (AffinePoint F) :=
  add invert p { x := q.x, y := -q.y, infinity := q.infinity }

/-- `AffinePoint::multiply`: the source loops over `bits.iter().rev()`,
starting from the identity, doubling the accumulator at every step and
adding `self` when the bit is set.  A panic in any step aborts the loop,
which the `Option`-threading models. -/
def multiply (p : AffinePoint F) (bits : List Bool) : Option (AffinePoint F) :=
  bits.reverse.foldl
    (fun product b =>
      product.bind fun prod =>
        (double invert prod).bind fun doubled =>
          if b then add invert doubled p else some doubled)
    (some identity)

/-- The spec's reference double-and-add computation: starting from the
identity, consume a most-significant-bit-first sequence, and at each step
unconditionally double the accumulator, then add `p` exactly when the
current bit is set — with no early exit, so every bit is consumed. -/
def specDoubleAndAdd (p : AffinePoint F) :
    Option (AffinePoint F) → List Bool → Option (AffinePoint F)
  | acc, [] => acc
  | acc, b :: rest =>
      specDoubleAndAdd p
        (acc.bind fun a =>
          (double invert a).bind fun doubled =>
            if b then add invert doubled p else some doubled)
        rest

variable (sqrt : F → Option F) (ALPHA BETA : F)

/-- `AffinePoint::from_x`: computes `y² = x³ + αx + β` and takes
`y_squared.sqrt().unwrap()` (the source carries a TODO questioning this
`unwrap`), so a non-residue makes the Rust code panic, modelled by `none`.
The external field `sqrt` is a parameter, modelled from the spec's field
interface ("modular square root"). -/
def from_x (x : F) : Option (AffinePoint F) :=
  let y_squared := x * x * x + ALPHA * x + BETA
  (sqrt y_squared).map fun y => { x := x, y := y, infinity := false }

end AffinePoint

instance : Fact (Nat.Prime 13) := ⟨by norm_num⟩

/-- Executable instantiation of the external field's `invert` on the
13-element field: no value on the zero divisor, the multiplicative inverse
otherwise, found by exhaustive search so that concrete runs reduce. -/
def invert13 (x : ZMod 13) : Option (ZMod 13) :=
  if x = 0 then none
  else ((List.range 13).map (Nat.cast (R := ZMod 13))).find? fun r => x * r = 1

/-- Executable instantiation of the external field's `sqrt` on the
13-element field, by exhaustive search. -/
def sqrt13 (y : ZMod 13) : Option (ZMod 13) :=
  ((List.range 13).map (Nat.cast (R := ZMod 13))).find? fun r => r * r = y

/-- C1: with `p = (0, 1)` and `q = (0, -1) = -p` (both finite, equal
x-coordinates, opposite y-coordinates), `add(p, q)` does not return the
identity: the slope denominator `q.x - p.x` is zero, the unchecked
`invert(…).unwrap()` is reached and the Rust code panics (`none`).  No
zero-denominator guard exists in `AffinePoint::add`. -/
theorem add_opposite_points_panics :
    (⟨0, 12, false⟩ : AffinePoint (ZMod 13)).x = (⟨0, 1, false⟩ : AffinePoint (ZMod 13)).x ∧
    (⟨0, 12, false⟩ : AffinePoint (ZMod 13)).y = -(⟨0, 1, false⟩ : AffinePoint (ZMod 13)).y ∧
    AffinePoint.add invert13 ⟨0, 1, false⟩ ⟨0, 12, false⟩ = none := by
  decide

/-- C2: `subtract(p, p)` on the finite point `p = (0, 1)` does not return
the identity: it calls `add(p, -p)`, whose slope denominator is zero, so the
unchecked `invert(…).unwrap()` makes the Rust code panic (`none`). -/
theorem subtract_self_panics :
    AffinePoint.subtract invert13 (⟨0, 1, false⟩ : AffinePoint (ZMod 13)) ⟨0, 1, false⟩ =
      none := by
  decide

/-- C3: on an `x` where `x³ + αx + β` is not a quadratic residue (here
`x = 0` with `α = 1`, `β = 2`, so `y² = 2`, a non-residue mod 13),
`from_x` reaches `sqrt().unwrap()` and the Rust code panics (`none`).
`from_x` returns `Self`, not a `Result`: there is no recoverable error
value to propagate. -/
theorem from_x_nonresidue_panics :
    (¬ ∃ r : ZMod 13, r * r = 0 * 0 * 0 + 1 * 0 + 2) ∧
    AffinePoint.from_x sqrt13 1 2 (0 : ZMod 13) = none := by
  decide

/-- C4: when `x³ + αx + β` is a quadratic residue (and the external `sqrt`
is sound and succeeds on residues), `from_x(x)` returns a finite point with
x-coordinate `x` satisfying `y² = x³ + αx + β`. -/
theorem from_x_residue_on_curve {F : Type} [Field F] (sqrt : F → Option F) (ALPHA BETA : F)
    (hsound : ∀ y r : F, sqrt y = some r → r * r = y)
    (htotal : ∀ y : F, (∃ r : F, r * r = y) → (sqrt y).isSome)
    (x : F) (hx : ∃ r : F, r * r = x * x * x + ALPHA * x + BETA) :
    ((AffinePoint.from_x sqrt ALPHA BETA x).map AffinePoint.x = some x) ∧
    ((AffinePoint.from_x sqrt ALPHA BETA x).map (fun p => p.y * p.y) =
      some (x * x * x + ALPHA * x + BETA)) ∧
    ((AffinePoint.from_x sqrt ALPHA BETA x).map AffinePoint.infinity = some false) := by
  have h1 := htotal _ hx
  cases hsq : sqrt (x * x * x + ALPHA * x + BETA) with
  | none => rw [hsq] at h1; simp at h1
  | some r =>
    refine ⟨?_, ?_, ?_⟩ <;>
      simp [AffinePoint.from_x, hsq, hsound _ _ hsq]

/-- C4, witness: over the 13-element field with `α = 1`, `β = 2` and
`x = 1`, the value `y² = 4` is a residue and `from_x` produces a point on
the curve. -/
theorem from_x_residue_on_curve_witness :
    ((AffinePoint.from_x sqrt13 1 2 (1 : ZMod 13)).map AffinePoint.x = some 1) ∧
    ((AffinePoint.from_x sqrt13 1 2 (1 : ZMod 13)).map (fun p => p.y * p.y) =
      some (1 * 1 * 1 + 1 * 1 + 2)) ∧
    ((AffinePoint.from_x sqrt13 1 2 (1 : ZMod 13)).map AffinePoint.infinity = some false) :=
  from_x_residue_on_curve sqrt13 1 2 (by decide) (by decide) 1 (by decide)

/-- C5, counterexample: for the non-canonical infinity representative
`p = (1, 0, infinity := true)`, `add(p, identity())` returns the canonical
`identity()` (the guard returns `*other`), which is not equal to `p` under
the derived field-wise equality, so `add(p, identity()) == p` fails. -/
theorem add_identity_noncanonical_cex :
    AffinePoint.add invert13 (⟨1, 0, true⟩ : AffinePoint (ZMod 13)) AffinePoint.identity ≠
      some ⟨1, 0, true⟩ := by
  decide

/-- C5, amended: `add(identity(), p) == p` holds for every `p`; and
`add(p, identity()) == p` holds whenever `p` is not at infinity, while for
`p` at infinity `add(p, identity())` returns the canonical `identity()`
value (equal to `p` exactly when `p` is the canonical representative). -/
theorem add_identity_characterization {F : Type} [Field F] (invert : F → Option F)
    (p : AffinePoint F) :
    AffinePoint.add invert AffinePoint.identity p = some p ∧
    (p.infinity = false → AffinePoint.add invert p AffinePoint.identity = some p) ∧
    (p.infinity = true →
      AffinePoint.add invert p AffinePoint.identity = some AffinePoint.identity) := by
  refine ⟨?_, fun hp => ?_, fun hp => ?_⟩
  · simp [AffinePoint.add, AffinePoint.identity]
  · simp [AffinePoint.add, AffinePoint.identity, hp]
  · simp [AffinePoint.add, AffinePoint.identity, hp]

/-- C5, witness: both identity laws on the finite point `(2, 3)`. -/
theorem add_identity_characterization_witness :
    AffinePoint.add invert13 AffinePoint.identity (⟨2, 3, false⟩ : AffinePoint (ZMod 13)) =
      some ⟨2, 3, false⟩ ∧
    AffinePoint.add invert13 (⟨2, 3, false⟩ : AffinePoint (ZMod 13)) AffinePoint.identity =
      some ⟨2, 3, false⟩ :=
  ⟨(add_identity_characterization invert13 ⟨2, 3, false⟩).1,
   (add_identity_characterization invert13 ⟨2, 3, false⟩).2.1 rfl⟩

/-- Helper: the source's `foldl` loop body computes the spec's
accumulator-style double-and-add recursion, for any starting accumulator. -/
theorem specDoubleAndAdd_eq_foldl {F : Type} [Field F] (invert : F → Option F)
    (p : AffinePoint F) :
    ∀ (l : List Bool) (acc : Option (AffinePoint F)),
      l.foldl
        (fun product b =>
          product.bind fun prod =>
            (AffinePoint.double invert prod).bind fun doubled =>
              if b then AffinePoint.add invert doubled p else some doubled)
        acc =
      AffinePoint.specDoubleAndAdd invert p acc l := by
  intro l
  induction l with
  | nil => intro acc; rfl
  | cons b rest ih =>
    intro acc
    rw [List.foldl_cons]
    simp only [AffinePoint.specDoubleAndAdd]
    exact ih _

/-- C6: `multiply(p, bits)` equals the reference double-and-add computation
that starts from `identity()` and consumes the bit sequence
most-significant-bit first (the source iterates `bits.iter().rev()`, so the
reference consumes `bits.reverse`), at each step unconditionally doubling
the accumulator and then adding `p` exactly when the bit is set; the
recursion has no early exit, so every bit is consumed. -/
theorem multiply_eq_spec_double_and_add {F : Type} [Field F] (invert : F → Option F)
    (p : AffinePoint F) (bits : List Bool) :
    AffinePoint.multiply invert p bits =
      AffinePoint.specDoubleAndAdd invert p (some AffinePoint.identity) bits.reverse :=
  specDoubleAndAdd_eq_foldl invert p bits.reverse (some AffinePoint.identity)

/-- C10: on finite inputs, the arithmetic branches of `add` and `double`
always construct their result with `infinity := false` (so the chord and
tangent formulas can never produce the group identity, whose `infinity`
flag is `true`; the identity only comes from the explicit guards). -/
theorem arithmetic_branch_never_infinity {F : Type} [Field F] (invert : F → Option F)
    (p q : AffinePoint F) (hp : p.infinity = false) (hq : q.infinity = false) :
    ((AffinePoint.add invert p q).all fun r => !r.infinity) = true ∧
    ((AffinePoint.double invert p).all fun r => !r.infinity) = true := by
  constructor
  · simp only [AffinePoint.add, hp, hq, Bool.false_eq_true, if_false]
    cases invert (q.x - p.x) <;> simp [Option.all]
  · simp only [AffinePoint.double, hp, Bool.false_eq_true, if_false]
    cases invert ((1 + 1) * p.y) <;> simp [Option.all]

/-- C10, witness: on the finite points `(0, 1)` and `(1, 1)` over the
13-element field, the results of `add` and `double` are finite. -/
theorem arithmetic_branch_never_infinity_witness :
    ((AffinePoint.add invert13 (⟨0, 1, false⟩ : AffinePoint (ZMod 13)) ⟨1, 1, false⟩).all
      fun r => !r.infinity) = true ∧
    ((AffinePoint.double invert13 (⟨0, 1, false⟩ : AffinePoint (ZMod 13))).all
      fun r => !r.infinity) = true :=
  arithmetic_branch_never_infinity invert13 ⟨0, 1, false⟩ ⟨1, 1, false⟩ rfl rfl

/-!
Embedding of `starknet-providers/src/sequencer/models/contract.rs`.

JSON values reaching the decoder are modelled as a tree; `serde_json`'s
text parsing and the per-field `serde_json::from_str` payload parsers are
external collaborators ("contract-class JSON schema parsing" is out of the
spec's scope), so the payload parsers are parameters and parsed payloads
are carried as raw JSON.  The source's
`serde_json::from_slice(json).unwrap()` on the bulk field struct aborts
the program when it fails, so the decoder's result type is
`Option (Except _ _)`, where `none` means the Rust code panics and the
inner `Except` is the `Result` the function returns.
-/

/-- A JSON value (object fields in order of appearance). -/
inductive Json where
  | null : Json
  | bool (b : Bool) : Json
  | num (n : Int) : Json
  | str (s : String) : Json
  | arr (elems : List Json) : Json
  | obj (fields : List (String × Json)) : Json

/-- The `BulkDeployedClassFields` helper struct of
`DeployedClass::deserialize_from_json_deployed_class`: the required common
fields and the three optional discriminating fields, all borrowed as raw
JSON values. -/
structure BulkDeployedClassFields where
  entry_points_by_type : Json
  abi : Json
  sierra_program : Option Json
  contract_class_version : Option Json
  program : Option Json

/-- A `serde_json` error value: either the `missing_field` error the source
builds explicitly, or any error produced by a payload parser. -/
inductive SerdeError where
  | missingField (name : String) : SerdeError
  | invalidType (msg : String) : SerdeError

/-- `DeployedClass`: the tagged union of a legacy class
(`abi`, `entry_points_by_type`, `program`) or a flattened Sierra class
(`sierra_program`, `contract_class_version`, `entry_points_by_type`,
`abi`); the out-of-scope payloads are carried as raw JSON. -/
inductive DeployedClass where
  | LegacyClass (abi entry_points_by_type program : Json) : DeployedClass
  | SierraClass
      (sierra_program contract_class_version entry_points_by_type abi : Json) :
      DeployedClass

/-- Deserialization of `BulkDeployedClassFields` from a JSON value: the
input must be an object, the common fields `entry_points_by_type` and
`abi` must be present, and the three discriminating fields are extracted
when present. -/
def parseBulkDeployedClassFields (j : Json) : Option BulkDeployedClassFields :=
  match j with
  | .obj fields =>
    match fields.lookup "entry_points_by_type", fields.lookup "abi" with
    | some entry_points, some abi =>
      some
        { entry_points_by_type := entry_points
          abi := abi
          sierra_program := fields.lookup "sierra_program"
          contract_class_version := fields.lookup "contract_class_version"
          program := fields.lookup "program" }
    | _, _ => none
  | _ => none

section DeployedClassDecoder

variable (parseLegacyAbi parseLegacyEntryPoints parseLegacyProgram : Json → Except SerdeError Json)
variable (parseSierraProgram parseString parseSierraEntryPoints : Json → Except SerdeError Json)

/-- `DeployedClass::deserialize_from_json_deployed_class`: parse the bulk
field struct (`.unwrap()`, so failure panics — `none`), then discriminate
on the presence of `program`: present routes to the legacy class, absent
routes to the Sierra class, whose `sierra_program` and
`contract_class_version` are required through `ok_or(missing_field)?`.
Payload parsing (`serde_json::from_str`) follows the source's evaluation
order, the first failure propagating through `?`. -/
def deserialize_from_json_deployed_class (json : Json) :
    Option (Except SerdeError DeployedClass) :=
  match parseBulkDeployedClassFields json with
  | none => none
  | some bulk_fields =>
    some
      (match bulk_fields.program with
       | some program =>
         match parseLegacyAbi bulk_fields.abi with
         | .error e => .error e
         | .ok abi =>
           match parseLegacyEntryPoints bulk_fields.entry_points_by_type with
           | .error e => .error e
           | .ok entry_points =>
             match parseLegacyProgram program with
             | .error e => .error e
             | .ok prog => .ok (.LegacyClass abi entry_points prog)
       | none =>
         match bulk_fields.sierra_program with
         | none => .error (.missingField "sierra_program")
         | some sierra_raw =>
           match parseSierraProgram sierra_raw with
           | .error e => .error e
           | .ok sierra_program =>
             match bulk_fields.contract_class_version with
             | none => .error (.missingField "contract_class_version")
             | some version_raw =>
               match parseString version_raw with
               | .error e => .error e
               | .ok version =>
                 match parseSierraEntryPoints bulk_fields.entry_points_by_type with
                 | .error e => .error e
                 | .ok entry_points =>
                   match parseString bulk_fields.abi with
                   | .error e => .error e
                   | .ok abi => .ok (.SierraClass sierra_program version entry_points abi))

end DeployedClassDecoder

/-- A trivially succeeding payload parser, used to exercise the decoder on
concrete inputs. -/
def okRaw : Json → Except SerdeError Json := fun j => .ok j

/-- C7, counterexample: on the well-formed JSON object `{}` — which has
neither the legacy nor the Sierra shape — the decoder does not return a
format-error result: the `serde_json::from_slice(json).unwrap()` on the
bulk field struct fails (missing `entry_points_by_type`/`abi`) and the
Rust code panics (`none`), so decoding is not total. -/
theorem decode_panics_on_missing_common_fields :
    deserialize_from_json_deployed_class okRaw okRaw okRaw okRaw okRaw okRaw
      (Json.obj []) = none := rfl

/-- C7, amended: whenever the bulk field extraction succeeds (the input is
an object carrying `entry_points_by_type` and `abi`), the decoder returns a
result and discriminates structurally: a present `program` field can only
produce a legacy class, an absent one only a Sierra class, and an absent
`program` together with a missing `sierra_program` or
`contract_class_version` produces an error result.  Inputs on which the
bulk extraction fails make the decoder panic instead of returning a format
error. -/
theorem decode_discriminates
    (parseLegacyAbi parseLegacyEntryPoints parseLegacyProgram
      parseSierraProgram parseString parseSierraEntryPoints :
        Json → Except SerdeError Json)
    (j : Json) (bf : BulkDeployedClassFields)
    (h : parseBulkDeployedClassFields j = some bf) :
    (deserialize_from_json_deployed_class parseLegacyAbi parseLegacyEntryPoints
        parseLegacyProgram parseSierraProgram parseString parseSierraEntryPoints
        j).isSome = true ∧
    (bf.program.isSome = true →
      ∀ s v e a,
        deserialize_from_json_deployed_class parseLegacyAbi parseLegacyEntryPoints
            parseLegacyProgram parseSierraProgram parseString parseSierraEntryPoints
            j ≠
          some (.ok (.SierraClass s v e a))) ∧
    (bf.program = none →
      ∀ a e pr,
        deserialize_from_json_deployed_class parseLegacyAbi parseLegacyEntryPoints
            parseLegacyProgram parseSierraProgram parseString parseSierraEntryPoints
            j ≠
          some (.ok (.LegacyClass a e pr))) ∧
    (bf.program = none →
      bf.sierra_program = none ∨ bf.contract_class_version = none →
      ∃ err,
        deserialize_from_json_deployed_class parseLegacyAbi parseLegacyEntryPoints
            parseLegacyProgram parseSierraProgram parseString parseSierraEntryPoints
            j =
          some (.error err)) := by
  refine ⟨?_, ?_, ?_, ?_⟩
  · simp only [deserialize_from_json_deployed_class, h, Option.isSome_some]
  · intro hps s v e a
    simp only [deserialize_from_json_deployed_class, h]
    obtain ⟨pr, hpr⟩ := Option.isSome_iff_exists.mp hps
    simp only [hpr, ne_eq, Option.some.injEq]
    repeat' (split <;> try simp)
  · intro hpr a e pr
    simp only [deserialize_from_json_deployed_class, h, hpr, ne_eq, Option.some.injEq]
    repeat' (split <;> try simp)
  · intro hpr hmissing
    simp only [deserialize_from_json_deployed_class, h, hpr]
    cases hsp : bf.sierra_program with
    | none => exact ⟨.missingField "sierra_program", by simp [hsp]⟩
    | some sierra_raw =>
      have hv : bf.contract_class_version = none := by
        cases hmissing with
        | inl hl => rw [hsp] at hl; cases hl
        | inr hr => exact hr
      cases hps2 : parseSierraProgram sierra_raw with
      | error e1 => exact ⟨e1, by simp [hsp, hps2]⟩
      | ok sp1 =>
        exact ⟨.missingField "contract_class_version", by simp [hsp, hps2, hv]⟩

/-- C7, witness: a JSON object with only the two required common fields is
decoded without panicking (to a `missing_field` error result). -/
theorem decode_discriminates_witness :
    (deserialize_from_json_deployed_class okRaw okRaw okRaw okRaw okRaw okRaw
      (Json.obj [("entry_points_by_type", Json.null), ("abi", Json.null)])).isSome =
      true :=
  (decode_discriminates okRaw okRaw okRaw okRaw okRaw okRaw
    (Json.obj [("entry_points_by_type", Json.null), ("abi", Json.null)])
    ⟨Json.null, Json.null, none, none, none⟩ rfl).1

/-!
Embedding of `CompressedSierraClass::from_flattened`.

The entry-point table is an out-of-scope payload and stays a type
parameter; `serde_json::to_string` on the hex-wrapped program and the
`flate2` gzip encoder (`GzEncoder::new(Vec::new(), level)`, `write_all`,
`finish`) are external collaborators, modelled from the spec at their
interface boundary as functions of their inputs only: the serializer takes
the program, the compressor takes the compression level and the byte
stream, and each reports failure as an error value (`serde_json::Error`
and `std::io::Error` payloads are carried as strings). -/

/-- `FlattenedSierraClass` (field elements of the program carried as
naturals, the entry-point table abstract). -/
structure FlattenedSierraClass (EP : Type) where
  sierra_program : List Nat
  contract_class_version : String
  entry_points_by_type : EP
  abi : String

/-- `CompressedSierraClass`: like the flattened class, but
`sierra_program` holds the compressed program bytes. -/
structure CompressedSierraClass (EP : Type) where
  sierra_program : List Nat
  contract_class_version : String
  entry_points_by_type : EP
  abi : String

/-- `DecompressProgramError`: a `Json` serialization sub-error or an `Io`
compression sub-error, tagged. -/
inductive DecompressProgramError where
  | Json (msg : String) : DecompressProgramError
  | Io (msg : String) : DecompressProgramError

/-- `Compression::best()` of `flate2`: the maximum gzip level. -/
def bestCompressionLevel : Nat := 9

section Compression

variable {EP : Type}
variable (serializeProgram : List Nat → Except String String)
variable (gzipCompress : Nat → List Nat → Except String (List Nat))
variable (stringBytes : String → List Nat)

/-- `CompressedSierraClass::from_flattened`: serialize the program to JSON
(failure becomes a `Json` error), gzip-compress its bytes at the best
compression level (failure becomes an `Io` error), and copy the remaining
fields of the flattened class unchanged. -/
def from_flattened (flattened_class : FlattenedSierraClass EP) :
    Except DecompressProgramError (CompressedSierraClass EP) :=
  match serializeProgram flattened_class.sierra_program with
  | .error e => .error (.Json e)
  | .ok program_json =>
    match gzipCompress bestCompressionLevel (stringBytes program_json) with
    | .error e => .error (.Io e)
    | .ok compressed_program =>
      .ok
        { sierra_program := compressed_program
          contract_class_version := flattened_class.contract_class_version
          entry_points_by_type := flattened_class.entry_points_by_type
          abi := flattened_class.abi }

/-- C8: compression is deterministic — it is a function of the flattened
class alone (given the fixed external serializer and compressor, which the
source calls with no other inputs: a fixed compression level and bytes
derived from the class), so identical inputs produce byte-identical
outputs. -/
theorem from_flattened_deterministic (c₁ c₂ : FlattenedSierraClass EP)
    (h : c₁ = c₂) :
    from_flattened serializeProgram gzipCompress stringBytes c₁ =
      from_flattened serializeProgram gzipCompress stringBytes c₂ := by
  rw [h]

/-- C9: when compression succeeds, the output carries the class's
`contract_class_version`, `entry_points_by_type` and `abi` unchanged, and
only `sierra_program` is replaced — by the best-level gzip compression of
the serialized program. -/
theorem from_flattened_frame (c : FlattenedSierraClass EP)
    (out : CompressedSierraClass EP)
    (h : from_flattened serializeProgram gzipCompress stringBytes c = .ok out) :
    out.contract_class_version = c.contract_class_version ∧
    out.entry_points_by_type = c.entry_points_by_type ∧
    out.abi = c.abi ∧
    ∃ program_json,
      serializeProgram c.sierra_program = .ok program_json ∧
      gzipCompress bestCompressionLevel (stringBytes program_json) =
        .ok out.sierra_program := by
  simp only [from_flattened] at h
  cases hs : serializeProgram c.sierra_program with
  | error e => rw [hs] at h; cases h
  | ok program_json =>
    simp only [hs] at h
    cases hg : gzipCompress bestCompressionLevel (stringBytes program_json) with
    | error e => rw [hg] at h; cases h
    | ok compressed_program =>
      simp only [hg] at h
      cases h
      exact ⟨rfl, rfl, rfl, program_json, rfl, hg⟩

end Compression

/-- A concrete external serializer used to exercise compression. -/
def serConst : List Nat → Except String String := fun _ => .ok "serialized"

/-- A concrete external gzip compressor used to exercise compression. -/
def gzConst : Nat → List Nat → Except String (List Nat) :=
  fun _ data => .ok (0 :: data)

/-- A concrete byte view of strings used to exercise compression. -/
def bytesConst : String → List Nat := fun _ => [7]

/-- C8, witness: determinism on a concrete flattened class. -/
theorem from_flattened_deterministic_witness :
    from_flattened serConst gzConst bytesConst
        (⟨[5], "0.1.0", (), "abi"⟩ : FlattenedSierraClass Unit) =
      from_flattened serConst gzConst bytesConst
        (⟨[5], "0.1.0", (), "abi"⟩ : FlattenedSierraClass Unit) :=
  from_flattened_deterministic serConst gzConst bytesConst
    ⟨[5], "0.1.0", (), "abi"⟩ ⟨[5], "0.1.0", (), "abi"⟩ rfl

/-- C9, witness: on a concrete flattened class whose compression succeeds,
the version and ABI fields are carried over unchanged. -/
theorem from_flattened_frame_witness :
    (⟨[0, 7], "0.1.0", (), "abi"⟩ :
        CompressedSierraClass Unit).contract_class_version = "0.1.0" ∧
    (⟨[0, 7], "0.1.0", (), "abi"⟩ : CompressedSierraClass Unit).abi = "abi" :=
  ⟨(from_flattened_frame serConst gzConst bytesConst
      ⟨[5], "0.1.0", (), "abi"⟩ ⟨[0, 7], "0.1.0", (), "abi"⟩ rfl).1,
   (from_flattened_frame serConst gzConst bytesConst
      ⟨[5], "0.1.0", (), "abi"⟩ ⟨[0, 7], "0.1.0", (), "abi"⟩ rfl).2.2.1⟩
